import Mathlib

/-!
Shallow embedding of the LC-3 virtual machine (`src/notes/main.c`) and a
verification of its specification claims.

Modelling conventions:
* `uint16_t` values are `Nat`s reduced modulo 2^16 (`toU16`); every store into
  a register or memory cell truncates, and every read re-truncates, mirroring
  the C type of the cells.
* The global arrays `memory` and `reg` become total functions `Nat → Nat`
  threaded through an explicit `State`.  The C array is declared with only
  `UINT16_MAX = 65535` slots; that bound is modelled separately by
  `MEMORY_LEN` together with the bounds-checked accessors `mem_read_checked`
  and `mem_write_checked` (the unchecked model uses the 16-bit address space
  of the VM's specification).
* Host input (`getchar`, and the `select`-based `check_key` poll) is modelled
  by the list of characters the host will deliver: `check_key` reports that
  list non-empty, `getchar` pops its head and yields `(unsigned)-1` (EOF cast
  to a 32-bit int) when the list is exhausted.  Host output (`putc`, `puts`,
  `printf`) appends bytes to an output list.
* `abort()` in the opcode dispatch is modelled by `Option.none`.
-/

namespace LC3

/-- Conversion to `uint16_t`: reduction modulo 2^16. -/
def toU16 (n : Nat) : Nat := n % 65536

/-- Register file indices (enum `R_R0 .. R_COND` in the source). -/
abbrev R_R0 : Nat := 0

abbrev R_R7 : Nat := 7

abbrev R_PC : Nat := 8

abbrev R_COND : Nat := 9

/-- Condition flags (enum `FL_POS`, `FL_ZRO`, `FL_NEG`). -/
abbrev FL_POS : Nat := 1

abbrev FL_ZRO : Nat := 2

abbrev FL_NEG : Nat := 4

/-- Opcodes, with the numeric values of the C enum (declaration order). -/
abbrev OP_BR : Nat := 0

abbrev OP_ADD : Nat := 1

abbrev OP_LD : Nat := 2

abbrev OP_ST : Nat := 3

abbrev OP_JSR : Nat := 4

abbrev OP_AND : Nat := 5

abbrev OP_LDR : Nat := 6

abbrev OP_STR : Nat := 7

abbrev OP_RTI : Nat := 8

abbrev OP_NOT : Nat := 9

abbrev OP_LDI : Nat := 10

abbrev OP_STI : Nat := 11

abbrev OP_JMP : Nat := 12

abbrev OP_RES : Nat := 13

abbrev OP_LEA : Nat := 14

abbrev OP_TRAP : Nat := 15

/-- Trap vectors (enum `TRAP_GETC .. TRAP_HALT`, 0x20 .. 0x25). -/
abbrev TRAP_GETC : Nat := 32

abbrev TRAP_OUT : Nat := 33

abbrev TRAP_PUTS : Nat := 34

abbrev TRAP_IN : Nat := 35

abbrev TRAP_PUTSP : Nat := 36

abbrev TRAP_HALT : Nat := 37

/-- Memory mapped registers: keyboard status 0xFE00 and keyboard data 0xFE02. -/
abbrev MR_KBSR : Nat := 65024

abbrev MR_KBDR : Nat := 65026

/-- Default program start address `PC_START = 0x3000`. -/
abbrev PC_START : Nat := 12288

/-- Number of slots of the C array `uint16_t memory[UINT16_MAX]`:
`UINT16_MAX` is 65535, so the array has 65535 elements (indices 0..65534),
although the comment above the declaration announces 65536 slots. -/
abbrev MEMORY_LEN : Nat := 65535

/-- Memory contents, one (16-bit) word per address. -/
def Mem : Type := Nat → Nat

/-- Read the raw word stored at an address (the cell has type `uint16_t`). -/
def memR (m : Mem) (a : Nat) : Nat := toU16 (m a)

/-- Store a word at an address (truncated to `uint16_t`). -/
def memW (m : Mem) (a v : Nat) : Mem := fun x => if x = a then toU16 v else m x

/-- Bounds-checked read against the declared array length: `memory[a]` is an
out-of-bounds access (undefined behaviour) when `a ≥ MEMORY_LEN`. -/
def mem_read_checked (m : Mem) (a : Nat) : Option Nat :=
  if a < MEMORY_LEN then some (memR m a) else none

/-- Bounds-checked write against the declared array length. -/
def mem_write_checked (m : Mem) (a v : Nat) : Option Mem :=
  if a < MEMORY_LEN then some (memW m a v) else none

/-- Full machine state: register file, memory, the `running` flag of the main
loop, pending host input, and accumulated host output bytes. -/
structure State where
  reg : Nat → Nat
  mem : Mem
  running : Bool
  input : List Nat
  output : List Nat

/-- Read register `i` (a `uint16_t` cell). -/
def regR (s : State) (i : Nat) : Nat := toU16 (s.reg i)

/-- Write register `i` (truncated to `uint16_t`). -/
def regW (s : State) (i v : Nat) : State :=
  { s with reg := fun j => if j = i then toU16 v else s.reg j }

/-- Function `check_key`: zero-timeout `select` on stdin, i.e. whether a host
character is pending. -/
def check_key (inp : List Nat) : Bool := !inp.isEmpty

/-- Function `getchar`: pop the next pending byte; at end of input `getchar`
returns `EOF = -1`, i.e. 4294967295 as an unsigned 32-bit value. -/
def getchar (inp : List Nat) : Nat × List Nat :=
  match inp with
  | c :: rest => (c % 256, rest)
  | [] => (4294967295, [])

/-- Function `mem_write`: unchecked store. -/
def mem_write (m : Mem) (a v : Nat) : Mem := memW m a v

/-- Function `mem_read`: reading the keyboard status register first polls the
host; on a pending character it sets the status word's high bit and stores the
character at the keyboard data register, otherwise it clears the status word;
then the (possibly just-updated) stored word at the requested address is
returned, together with the updated memory and remaining input. -/
def mem_read (m : Mem) (inp : List Nat) (a : Nat) : Nat × Mem × List Nat :=
  if a = MR_KBSR then
    if check_key inp then
      let g := getchar inp
      let m1 := memW (memW m MR_KBSR 32768) MR_KBDR g.1
      (memR m1 a, m1, g.2)
    else
      let m1 := memW m MR_KBSR 0
      (memR m1 a, m1, inp)
  else (memR m a, m, inp)

/-- Function `sign_extend`: if bit `bit_count - 1` of `x` is set, OR in all
higher bits (`0xFFFF << bit_count`, truncated by the `uint16_t` assignment). -/
def sign_extend (x : Nat) (bit_count : Nat) : Nat :=
  if (x >>> (bit_count - 1)) &&& 1 = 1 then toU16 (x ||| (65535 <<< bit_count)) else x

/-- Function `update_flags`: set `R_COND` from the value of register `r`. -/
def update_flags (s : State) (r : Nat) : State :=
  if regR s r = 0 then regW s R_COND FL_ZRO
  else if regR s r >>> 15 ≠ 0 then regW s R_COND FL_NEG
  else regW s R_COND FL_POS

/-- Case `OP_ADD` of the dispatch switch. -/
def opADD (instr : Nat) (s : State) : State :=
  let r0 := (instr >>> 9) &&& 7
  let r1 := (instr >>> 6) &&& 7
  let s1 :=
    if (instr >>> 5) &&& 1 = 1 then
      regW s r0 (regR s r1 + sign_extend (instr &&& 31) 5)
    else
      regW s r0 (regR s r1 + regR s (instr &&& 7))
  update_flags s1 r0

/-- Case `OP_AND` of the dispatch switch. -/
def opAND (instr : Nat) (s : State) : State :=
  let r0 := (instr >>> 9) &&& 7
  let r1 := (instr >>> 6) &&& 7
  let s1 :=
    if (instr >>> 5) &&& 1 = 1 then
      regW s r0 (regR s r1 &&& sign_extend (instr &&& 31) 5)
    else
      regW s r0 (regR s r1 &&& regR s (instr &&& 7))
  update_flags s1 r0

/-- Case `OP_NOT`: `~x` on a `uint16_t` is XOR with 0xFFFF. -/
def opNOT (instr : Nat) (s : State) : State :=
  let r0 := (instr >>> 9) &&& 7
  let r1 := (instr >>> 6) &&& 7
  update_flags (regW s r0 ((regR s r1) ^^^ 65535)) r0

/-- Case `OP_BR`. -/
def opBR (instr : Nat) (s : State) : State :=
  let pc_offset := sign_extend (instr &&& 511) 9
  let cond_flag := (instr >>> 9) &&& 7
  if cond_flag &&& regR s R_COND ≠ 0 then
    regW s R_PC (regR s R_PC + pc_offset)
  else s

/-- Case `OP_JMP` (also `RET`). -/
def opJMP (instr : Nat) (s : State) : State :=
  regW s R_PC (regR s ((instr >>> 6) &&& 7))

/-- Case `OP_JSR` / `JSRR`. -/
def opJSR (instr : Nat) (s : State) : State :=
  let long_flag := (instr >>> 11) &&& 1
  let s1 := regW s R_R7 (regR s R_PC)
  if long_flag = 1 then
    regW s1 R_PC (regR s1 R_PC + sign_extend (instr &&& 2047) 11)
  else
    regW s1 R_PC (regR s1 ((instr >>> 6) &&& 7))

/-- Case `OP_LD`. -/
def opLD (instr : Nat) (s : State) : State :=
  let r0 := (instr >>> 9) &&& 7
  let pc_offset := sign_extend (instr &&& 511) 9
  let f := mem_read s.mem s.input (toU16 (regR s R_PC + pc_offset))
  update_flags (regW { s with mem := f.2.1, input := f.2.2 } r0 f.1) r0

/-- Case `OP_LDI`: two chained memory reads. -/
def opLDI (instr : Nat) (s : State) : State :=
  let r0 := (instr >>> 9) &&& 7
  let pc_offset := sign_extend (instr &&& 511) 9
  let f1 := mem_read s.mem s.input (toU16 (regR s R_PC + pc_offset))
  let f2 := mem_read f1.2.1 f1.2.2 f1.1
  update_flags (regW { s with mem := f2.2.1, input := f2.2.2 } r0 f2.1) r0

/-- Case `OP_LDR`. -/
def opLDR (instr : Nat) (s : State) : State :=
  let r0 := (instr >>> 9) &&& 7
  let r1 := (instr >>> 6) &&& 7
  let off := sign_extend (instr &&& 63) 6
  let f := mem_read s.mem s.input (toU16 (regR s r1 + off))
  update_flags (regW { s with mem := f.2.1, input := f.2.2 } r0 f.1) r0

/-- Case `OP_LEA`. -/
def opLEA (instr : Nat) (s : State) : State :=
  let r0 := (instr >>> 9) &&& 7
  let pc_offset := sign_extend (instr &&& 511) 9
  update_flags (regW s r0 (regR s R_PC + pc_offset)) r0

/-- Case `OP_ST`. -/
def opST (instr : Nat) (s : State) : State :=
  let r0 := (instr >>> 9) &&& 7
  let pc_offset := sign_extend (instr &&& 511) 9
  { s with mem := mem_write s.mem (toU16 (regR s R_PC + pc_offset)) (regR s r0) }

/-- Case `OP_STI`: the destination address is read through `mem_read`. -/
def opSTI (instr : Nat) (s : State) : State :=
  let r0 := (instr >>> 9) &&& 7
  let pc_offset := sign_extend (instr &&& 511) 9
  let f := mem_read s.mem s.input (toU16 (regR s R_PC + pc_offset))
  { s with mem := mem_write f.2.1 f.1 (regR s r0), input := f.2.2 }

/-- Case `OP_STR`. -/
def opSTR (instr : Nat) (s : State) : State :=
  let r0 := (instr >>> 9) &&& 7
  let r1 := (instr >>> 6) &&& 7
  let off := sign_extend (instr &&& 63) 6
  { s with mem := mem_write s.mem (toU16 (regR s r1 + off)) (regR s r0) }

/-- Words of the null-terminated string at address `a` (the `while (*c)` scan
of `TRAP_PUTS` / `TRAP_PUTSP`); `fuel` bounds the scan, which in C walks the
raw array until a zero word. -/
def string_words (m : Mem) (a : Nat) : Nat → List Nat
  | 0 => []
  | fuel + 1 => if memR m a = 0 then [] else memR m a :: string_words m (a + 1) fuel

/-- Bytes printed by the prompt `printf("Enter a charater: ")` of `TRAP_IN`. -/
def prompt_bytes : List Nat := "Enter a charater: ".toList.map Char.toNat

/-- Bytes printed by `puts("HALT")` (with its trailing newline). -/
def halt_bytes : List Nat := ("HALT".toList.map Char.toNat) ++ [10]

/-- Bytes printed by `TRAP_PUTSP` for a list of words: the low byte of each
word, then the high byte when it is non-zero. -/
def putsp_bytes : List Nat → List Nat
  | [] => []
  | w :: ws => (w &&& 255) :: ((if w >>> 8 ≠ 0 then [w >>> 8] else []) ++ putsp_bytes ws)

/-- Case `OP_TRAP`: dispatch on the low 8 bits of the instruction.  The inner
switch has no default case, so an unrecognized vector falls through with no
effect. -/
def opTRAP (instr : Nat) (s : State) : State :=
  if instr &&& 255 = TRAP_GETC then
    let g := getchar s.input
    update_flags (regW { s with input := g.2 } R_R0 g.1) R_R0
  else if instr &&& 255 = TRAP_OUT then
    { s with output := s.output ++ [regR s R_R0 &&& 255] }
  else if instr &&& 255 = TRAP_PUTS then
    { s with output := s.output ++ (string_words s.mem (regR s R_R0) 65536).map (fun w => w &&& 255) }
  else if instr &&& 255 = TRAP_IN then
    let g := getchar s.input
    let b := g.1 % 256
    let v := if b < 128 then b else b + 65280
    update_flags (regW { s with input := g.2, output := s.output ++ prompt_bytes ++ [b] } R_R0 v) R_R0
  else if instr &&& 255 = TRAP_PUTSP then
    { s with output := s.output ++ putsp_bytes (string_words s.mem (regR s R_R0) 65536) }
  else if instr &&& 255 = TRAP_HALT then
    { s with output := s.output ++ halt_bytes, running := false }
  else s

/-- The dispatch switch of the main loop, `none` modelling `abort()` (cases
`OP_RES`, `OP_RTI` and the default). -/
def execute (instr : Nat) (s : State) : Option State :=
  if instr >>> 12 = OP_ADD then some (opADD instr s)
  else if instr >>> 12 = OP_AND then some (opAND instr s)
  else if instr >>> 12 = OP_NOT then some (opNOT instr s)
  else if instr >>> 12 = OP_BR then some (opBR instr s)
  else if instr >>> 12 = OP_JMP then some (opJMP instr s)
  else if instr >>> 12 = OP_JSR then some (opJSR instr s)
  else if instr >>> 12 = OP_LD then some (opLD instr s)
  else if instr >>> 12 = OP_LDI then some (opLDI instr s)
  else if instr >>> 12 = OP_LDR then some (opLDR instr s)
  else if instr >>> 12 = OP_LEA then some (opLEA instr s)
  else if instr >>> 12 = OP_ST then some (opST instr s)
  else if instr >>> 12 = OP_STI then some (opSTI instr s)
  else if instr >>> 12 = OP_STR then some (opSTR instr s)
  else if instr >>> 12 = OP_TRAP then some (opTRAP instr s)
  else none

/-- One iteration of the `while (running)` body: fetch the instruction at the
program counter (a `mem_read`, with its possible keyboard side effect),
increment the program counter, and dispatch on the opcode. -/
def stepBody (s : State) : Option State :=
  let f := mem_read s.mem s.input (regR s R_PC)
  let s1 := regW { s with mem := f.2.1, input := f.2.2 } R_PC (regR s R_PC + 1)
  execute f.1 s1

/-- The main loop, fuel-bounded: each round exits if `running` is false,
otherwise runs one loop body (`none` propagates an `abort()`). -/
def run : Nat → State → Option State
  | 0, s => some s
  | n + 1, s =>
    if s.running then
      match stepBody s with
      | none => none
      | some t => run n t
    else some s

/-- The state at the top of the main loop: registers zero-initialized except
`R_COND = FL_ZRO` and `R_PC = PC_START`, `running` true, no output yet. -/
def initState (m : Mem) (inp : List Nat) : State :=
  { reg := fun i => if i = R_COND then FL_ZRO else if i = R_PC then PC_START else 0
    mem := m
    running := true
    input := inp
    output := [] }

/-- Function `swap16`: byte swap by an 8-bit rotation of the 16-bit word. -/
def swap16 (x : Nat) : Nat := toU16 ((x <<< 8) ||| (x >>> 8))

/-- Words obtained by `fread` of 16-bit items on a little-endian host: each
pair of stream bytes composes low byte first.  A trailing lone byte is not a
complete item and is dropped (`fread` does not count it). -/
def bytesToWordsLE : List Nat → List Nat
  | [] => []
  | [_] => []
  | b0 :: b1 :: rest => (b0 % 256 + 256 * (b1 % 256)) :: bytesToWordsLE rest

/-- Sequential raw stores of `fread` into `memory + origin`. -/
def writeWords (m : Mem) (a : Nat) : List Nat → Mem
  | [] => m
  | w :: ws => writeWords (memW m a w) (a + 1) ws

/-- The in-place `*p = swap16(*p); ++p;` pass over the `read` words. -/
def swapRegion (m : Mem) (a : Nat) : Nat → Mem
  | 0 => m
  | n + 1 => swapRegion (memW m a (swap16 (memR m a))) (a + 1) n

/-- Function `read_image_file`: read the big-endian origin word (swapped to
host order), then at most `UINT16_MAX - origin` raw words into memory at
`origin`, and byte-swap each read word in place.  A stream shorter than the
origin word leaves `origin` uninitialized in C; the model performs no write
in that case. -/
def read_image_file (m : Mem) (bytes : List Nat) : Mem :=
  match bytes with
  | b0 :: b1 :: rest =>
    let origin := swap16 (b0 % 256 + 256 * (b1 % 256))
    let max_read := 65535 - origin
    let ws := (bytesToWordsLE rest).take max_read
    swapRegion (writeWords m origin ws) origin ws.length
  | _ => m

/-- Function `read_image`: `none` models a stream that cannot be opened
(`fopen` returning `NULL`), in which case the function returns 0 and memory
is untouched. -/
def read_image (m : Mem) (file : Option (List Nat)) : Bool × Mem :=
  match file with
  | none => (false, m)
  | some bytes => (true, read_image_file m bytes)

/-- Modelled from the spec: the big-endian 16-bit words of a byte stream
("binary, big-endian 16-bit words", most significant byte first), used to
state the loader round-trip against the implementation. -/
def beWords : List Nat → List Nat
  | [] => []
  | [_] => []
  | b0 :: b1 :: rest => (256 * (b0 % 256) + (b1 % 256)) :: beWords rest

/-- Modelled from the spec: the condition flag demanded for a result value
(zero flag for 0, negative flag when bit 15 is set, positive otherwise). -/
def flagFor (v : Nat) : Nat :=
  if v = 0 then FL_ZRO else if v >>> 15 ≠ 0 then FL_NEG else FL_POS

/-! Basic lemmas about the 16-bit cells. -/

theorem toU16_lt (n : Nat) : toU16 n < 65536 := Nat.mod_lt _ (by norm_num)

theorem toU16_of_lt {n : Nat} (h : n < 65536) : toU16 n = n := Nat.mod_eq_of_lt h

@[simp] theorem toU16_toU16 (n : Nat) : toU16 (toU16 n) = toU16 n :=
  Nat.mod_mod_of_dvd n dvd_rfl

theorem regR_lt (s : State) (i : Nat) : regR s i < 65536 := toU16_lt _

@[simp] theorem regW_mem (s : State) (i v : Nat) : (regW s i v).mem = s.mem := rfl

@[simp] theorem regW_running (s : State) (i v : Nat) : (regW s i v).running = s.running := rfl

@[simp] theorem regW_input (s : State) (i v : Nat) : (regW s i v).input = s.input := rfl

@[simp] theorem regW_output (s : State) (i v : Nat) : (regW s i v).output = s.output := rfl

theorem regR_regW (s : State) (i v j : Nat) :
    regR (regW s i v) j = if j = i then toU16 v else regR s j := by
  unfold regR regW
  by_cases h : j = i <;> simp [h]

theorem regR_regW_self (s : State) (i v : Nat) : regR (regW s i v) i = toU16 v := by
  rw [regR_regW, if_pos rfl]

theorem regR_regW_ne (s : State) {i j : Nat} (v : Nat) (h : j ≠ i) :
    regR (regW s i v) j = regR s j := by
  rw [regR_regW, if_neg h]

theorem memR_lt (m : Mem) (a : Nat) : memR m a < 65536 := toU16_lt _

theorem memR_memW (m : Mem) (a v x : Nat) :
    memR (memW m a v) x = if x = a then toU16 v else memR m x := by
  unfold memR memW
  by_cases h : x = a <;> simp [h]

/-! Lemmas about `update_flags`. -/

@[simp] theorem update_flags_mem (s : State) (r : Nat) : (update_flags s r).mem = s.mem := by
  unfold update_flags
  split_ifs <;> rfl

@[simp] theorem update_flags_running (s : State) (r : Nat) :
    (update_flags s r).running = s.running := by
  unfold update_flags
  split_ifs <;> rfl

@[simp] theorem update_flags_input (s : State) (r : Nat) :
    (update_flags s r).input = s.input := by
  unfold update_flags
  split_ifs <;> rfl

@[simp] theorem update_flags_output (s : State) (r : Nat) :
    (update_flags s r).output = s.output := by
  unfold update_flags
  split_ifs <;> rfl

theorem regR_update_flags_cond (s : State) (r : Nat) :
    regR (update_flags s r) R_COND = flagFor (regR s r) := by
  unfold update_flags flagFor
  split_ifs <;> simp [regR_regW_self, toU16] <;> norm_num

theorem regR_update_flags_ne (s : State) (r : Nat) {j : Nat} (h : j ≠ R_COND) :
    regR (update_flags s r) j = regR s j := by
  unfold update_flags
  split_ifs <;> rw [regR_regW_ne _ _ h]

/-! Lemmas about `mem_read`. -/

theorem mem_read_of_ne {m : Mem} {inp : List Nat} {a : Nat} (h : a ≠ MR_KBSR) :
    mem_read m inp a = (memR m a, m, inp) := by
  unfold mem_read
  rw [if_neg h]

/-! Disjoint-bit arithmetic for `swap16` and `sign_extend`. -/

theorem swap16_le_be {a b : Nat} (ha : a < 256) (hb : b < 256) :
    swap16 (a + 256 * b) = 256 * a + b := by
  unfold swap16 toU16
  rw [Nat.shiftLeft_eq, Nat.shiftRight_eq_div_pow]
  have hdiv : (a + 256 * b) / 2 ^ 8 = b := by
    show (a + 256 * b) / 256 = b
    omega
  have hmul : (a + 256 * b) * 2 ^ 8 = 2 ^ 8 * (a + 256 * b) := by ring
  rw [hdiv, hmul, ← Nat.mul_add_lt_is_or (by omega : b < 2 ^ 8) (a + 256 * b)]
  omega

theorem swap16_lt (x : Nat) : swap16 x < 65536 := toU16_lt _

theorem sign_extend_neg {f b : Nat} (hb : b ≤ 16) (hf : f < 2 ^ b)
    (hbit : (f >>> (b - 1)) &&& 1 = 1) :
    sign_extend f b = f + (65536 - 2 ^ b) := by
  unfold sign_extend toU16
  rw [if_pos hbit, Nat.shiftLeft_eq, Nat.lor_comm]
  have hmul : 65535 * 2 ^ b = 2 ^ b * 65535 := by ring
  rw [hmul, ← Nat.mul_add_lt_is_or hf 65535]
  have hp : 2 ^ b ≤ 65536 := by
    calc 2 ^ b ≤ 2 ^ 16 := Nat.pow_le_pow_right (by norm_num) hb
    _ = 65536 := by norm_num
  omega

theorem sign_extend_pos {f b : Nat} (hbit : ¬((f >>> (b - 1)) &&& 1 = 1)) :
    sign_extend f b = f := by
  unfold sign_extend
  rw [if_neg hbit]

theorem shift_and_one_eq_testBit (f k : Nat) : ((f >>> k) &&& 1 = 1) ↔ f.testBit k := by
  rw [Nat.testBit_to_div_mod, Nat.and_one_is_mod, Nat.shiftRight_eq_div_pow]
  simp

/-- Claim C2: for every 16-bit value `v` and `bit_count` `b` in 1..16,
`sign_extend` of the low `b` bits of `v` is the 16-bit two's-complement value
of that `b`-bit field: when bit `b-1` of the field is set the result is the
field plus `2^16 - 2^b` (all bits `b..15` set, low `b` bits preserved),
otherwise the field unchanged; in particular `sign_extend 0b11111 5 = 0xFFFF`
and `sign_extend 0b01111 5 = 15`. -/
theorem sign_extend_twos_complement :
    (∀ v b : Nat, v < 65536 → 1 ≤ b → b ≤ 16 →
      sign_extend (v % 2 ^ b) b =
        if (v % 2 ^ b).testBit (b - 1) then v % 2 ^ b + (65536 - 2 ^ b) else v % 2 ^ b)
    ∧ sign_extend 31 5 = 65535 ∧ sign_extend 15 5 = 15 := by
  refine ⟨fun v b _ hb1 hb16 => ?_, by decide, by decide⟩
  have hf : v % 2 ^ b < 2 ^ b := Nat.mod_lt _ (Nat.pos_pow_of_pos _ (by norm_num))
  by_cases hbit : ((v % 2 ^ b) >>> (b - 1)) &&& 1 = 1
  · rw [if_pos ((shift_and_one_eq_testBit _ _).mp hbit)]
    exact sign_extend_neg hb16 hf hbit
  · rw [if_neg fun ht => hbit ((shift_and_one_eq_testBit _ _).mpr ht)]
    exact sign_extend_pos hbit

/-- Witness for C2 at `v = 47`, `b = 5`. -/
theorem sign_extend_twos_complement_witness :
    sign_extend (47 % 2 ^ 5) 5 =
      if (47 % 2 ^ 5).testBit 4 then 47 % 2 ^ 5 + (65536 - 2 ^ 5) else 47 % 2 ^ 5 :=
  sign_extend_twos_complement.1 47 5 (by decide) (by decide) (by decide)

/-- Claim C1 (refuted by the declared array length): `uint16_t
memory[UINT16_MAX]` allocates `MEMORY_LEN = 65535` slots, one short of the
65536 words the address space requires, so the 16-bit address 0xFFFF = 65535
is an out-of-bounds access while every lower address (0xFFFE shown here, and
the device registers) is in bounds. -/
theorem memory_oob_at_top :
    MEMORY_LEN = 65535
    ∧ mem_read_checked (fun _ => 0) 65535 = none
    ∧ mem_write_checked (fun _ => 0) 65535 7 = none
    ∧ mem_read_checked (fun _ => 0) 65534 = some 0
    ∧ mem_read_checked (fun _ => 0) MR_KBSR = some 0 := by
  exact ⟨rfl, by decide, rfl, by decide, by decide⟩

/-- Claim C4: reading the keyboard status address first polls the host input;
with a pending character `c` the status word becomes 0x8000 (returned by the
read) and the data register receives the character's code, consuming it from
the input; with no pending input the status word becomes 0 and the read
returns exactly 0; other memory is untouched in both cases. -/
theorem kbsr_read_spec :
    (∀ (m : Mem) (c : Nat) (rest : List Nat),
      (mem_read m (c :: rest) MR_KBSR).1 = 32768
      ∧ (mem_read m (c :: rest) MR_KBSR).2.1 MR_KBSR = 32768
      ∧ (mem_read m (c :: rest) MR_KBSR).2.1 MR_KBDR = c % 256
      ∧ (mem_read m (c :: rest) MR_KBSR).2.2 = rest
      ∧ ∀ x : Nat, x ≠ MR_KBSR → x ≠ MR_KBDR → (mem_read m (c :: rest) MR_KBSR).2.1 x = m x)
    ∧ (∀ m : Mem,
      (mem_read m [] MR_KBSR).1 = 0
      ∧ (mem_read m [] MR_KBSR).2.1 MR_KBSR = 0
      ∧ (mem_read m [] MR_KBSR).2.2 = []
      ∧ ∀ x : Nat, x ≠ MR_KBSR → (mem_read m [] MR_KBSR).2.1 x = m x) := by
  constructor
  · intro m c rest
    refine ⟨?_, ?_, ?_, ?_, fun x hx1 hx2 => ?_⟩
    · simp [mem_read, check_key, getchar, memR, memW, toU16]
    · simp [mem_read, check_key, getchar, memR, memW, toU16]
    · simp [mem_read, check_key, getchar, memR, memW, toU16]
      omega
    · simp [mem_read, check_key, getchar]
    · simp [mem_read, check_key, getchar, memW, hx1, hx2]
  · intro m
    refine ⟨?_, ?_, ?_, fun x hx1 => ?_⟩
    · simp [mem_read, check_key, memR, memW, toU16]
    · simp [mem_read, check_key, memR, memW, toU16]
    · simp [mem_read, check_key]
    · simp [mem_read, check_key, memW, hx1]

/-- Witness for C4: a pending character 65 is reported ready and stored, and
with no pending input the status read yields 0. -/
theorem kbsr_read_spec_witness :
    (mem_read (fun _ => 0) (65 :: []) MR_KBSR).1 = 32768
    ∧ (mem_read (fun _ => 0) (65 :: []) MR_KBSR).2.1 MR_KBDR = 65 % 256
    ∧ (mem_read (fun _ => 0) ([] : List Nat) MR_KBSR).1 = 0
    ∧ (mem_read (fun _ => 0) (65 :: []) MR_KBSR).2.1 7 = 0 :=
  ⟨(kbsr_read_spec.1 (fun _ => 0) 65 []).1,
   (kbsr_read_spec.1 (fun _ => 0) 65 []).2.2.1,
   (kbsr_read_spec.2 (fun _ => 0)).1,
   (kbsr_read_spec.1 (fun _ => 0) 65 []).2.2.2.2 7 (by decide) (by decide)⟩

/-! Lemmas about the image loader. -/

theorem writeWords_apply (ws : List Nat) : ∀ (m : Mem) (a x : Nat),
    writeWords m a ws x =
      if a ≤ x ∧ x < a + ws.length then toU16 (ws.getD (x - a) 0) else m x := by
  induction ws with
  | nil =>
    intro m a x
    rw [writeWords, if_neg (by simp)]
  | cons w ws ih =>
    intro m a x
    rw [writeWords, ih]
    by_cases h1 : a + 1 ≤ x ∧ x < a + 1 + ws.length
    · rw [if_pos h1, if_pos (by simp only [List.length_cons]; omega)]
      have hx : x - a = (x - (a + 1)) + 1 := by omega
      rw [hx, List.getD_cons_succ]
    · rw [if_neg h1]
      unfold memW
      by_cases h2 : x = a
      · subst h2
        rw [if_pos rfl, if_pos (by simp only [List.length_cons]; omega), Nat.sub_self,
          List.getD_cons_zero]
      · rw [if_neg h2, if_neg (by simp only [List.length_cons]; omega)]

theorem swapRegion_apply : ∀ (n : Nat) (m : Mem) (a x : Nat),
    swapRegion m a n x =
      if a ≤ x ∧ x < a + n then toU16 (swap16 (memR m x)) else m x := by
  intro n
  induction n with
  | zero =>
    intro m a x
    rw [swapRegion, if_neg (by omega)]
  | succ n ih =>
    intro m a x
    rw [swapRegion, ih]
    by_cases h1 : a + 1 ≤ x ∧ x < a + 1 + n
    · rw [if_pos h1, if_pos (by omega)]
      rw [memR_memW, if_neg (by omega)]
    · unfold memW
      rw [if_neg h1]
      by_cases h2 : x = a
      · subst h2
        rw [if_pos rfl, if_pos (by omega)]
      · rw [if_neg h2, if_neg (by omega)]

theorem read_image_file_apply (m : Mem) (b0 b1 : Nat) (data : List Nat) (x : Nat) :
    read_image_file m (b0 :: b1 :: data) x =
      (if swap16 (b0 % 256 + 256 * (b1 % 256)) ≤ x
          ∧ x < swap16 (b0 % 256 + 256 * (b1 % 256)) +
              ((bytesToWordsLE data).take (65535 - swap16 (b0 % 256 + 256 * (b1 % 256)))).length
       then toU16 (swap16 (toU16
          (((bytesToWordsLE data).take (65535 - swap16 (b0 % 256 + 256 * (b1 % 256)))).getD
            (x - swap16 (b0 % 256 + 256 * (b1 % 256))) 0)))
       else m x) := by
  show swapRegion _ _ _ _ = _
  rw [swapRegion_apply]
  by_cases h : swap16 (b0 % 256 + 256 * (b1 % 256)) ≤ x
      ∧ x < swap16 (b0 % 256 + 256 * (b1 % 256)) +
          ((bytesToWordsLE data).take (65535 - swap16 (b0 % 256 + 256 * (b1 % 256)))).length
  · rw [if_pos h, if_pos h]
    unfold memR
    rw [writeWords_apply, if_pos h]
    rw [toU16_toU16]
  · rw [if_neg h, if_neg h, writeWords_apply, if_neg h]

theorem bytesToWordsLE_lt : ∀ (bs : List Nat) (w : Nat), w ∈ bytesToWordsLE bs → w < 65536
  | b0 :: b1 :: rest, w, hw => by
    rw [bytesToWordsLE] at hw
    rcases List.mem_cons.mp hw with h | h
    · have h0 : b0 % 256 < 256 := Nat.mod_lt _ (by norm_num)
      have h1 : b1 % 256 < 256 := Nat.mod_lt _ (by norm_num)
      omega
    · exact bytesToWordsLE_lt rest w h
  | [], w, hw => by rw [bytesToWordsLE] at hw; cases hw
  | [b], w, hw => by rw [bytesToWordsLE] at hw; cases hw

theorem bytesToWordsLE_getD_lt (bs : List Nat) (i : Nat) (h : i < (bytesToWordsLE bs).length) :
    (bytesToWordsLE bs).getD i 0 < 65536 := by
  rw [List.getD_eq_getElem?_getD, List.getElem?_eq_getElem h]
  exact bytesToWordsLE_lt bs _ (List.getElem_mem h)

theorem beWords_eq : ∀ bs : List Nat, beWords bs = (bytesToWordsLE bs).map swap16
  | b0 :: b1 :: rest => by
    rw [beWords, bytesToWordsLE, List.map_cons, beWords_eq rest,
      swap16_le_be (Nat.mod_lt _ (by norm_num)) (Nat.mod_lt _ (by norm_num))]
  | [] => rfl
  | [b] => rfl

theorem beWords_length (bs : List Nat) : (beWords bs).length = (bytesToWordsLE bs).length := by
  rw [beWords_eq, List.length_map]

/-- Claim C5: loading a byte stream whose first big-endian word is the origin
and whose remaining bytes form `N` big-endian data words (the load fitting in
memory) places exactly those big-endian word values at `origin..origin+N-1`,
the conversion being the 8-bit rotation `swap16` applied to each fetched word
including the origin itself. -/
theorem load_roundtrip (m : Mem) (b0 b1 : Nat) (data : List Nat) (i : Nat)
    (fits : (beWords data).length ≤ 65535 - swap16 (b0 % 256 + 256 * (b1 % 256)))
    (hi : i < (beWords data).length) :
    read_image_file m (b0 :: b1 :: data) (swap16 (b0 % 256 + 256 * (b1 % 256)) + i)
      = (beWords data).getD i 0
    ∧ swap16 (b0 % 256 + 256 * (b1 % 256)) = 256 * (b0 % 256) + (b1 % 256) := by
  have horigin : swap16 (b0 % 256 + 256 * (b1 % 256)) = 256 * (b0 % 256) + (b1 % 256) :=
    swap16_le_be (Nat.mod_lt _ (by norm_num)) (Nat.mod_lt _ (by norm_num))
  refine ⟨?_, horigin⟩
  have hlen : (bytesToWordsLE data).length = (beWords data).length := (beWords_length data).symm
  have htake : (bytesToWordsLE data).take (65535 - swap16 (b0 % 256 + 256 * (b1 % 256)))
      = bytesToWordsLE data :=
    List.take_of_length_le (by omega)
  rw [read_image_file_apply, htake, if_pos (by omega), Nat.add_sub_cancel_left]
  have hi' : i < (bytesToWordsLE data).length := by omega
  have hwlt : (bytesToWordsLE data).getD i 0 < 65536 := bytesToWordsLE_getD_lt data i hi'
  rw [toU16_of_lt hwlt, toU16_of_lt (swap16_lt _), beWords_eq,
    List.getD_eq_getElem?_getD, List.getD_eq_getElem?_getD, List.getElem?_map,
    List.getElem?_eq_getElem hi']
  rfl

/-- Witness for C5: origin 0x3000, data words 0x1242 and 0x0001. -/
theorem load_roundtrip_witness :
    read_image_file (fun _ => 0) (48 :: 0 :: 18 :: 66 :: 0 :: 1 :: [])
        (swap16 (48 % 256 + 256 * (0 % 256)) + 0)
      = (beWords (18 :: 66 :: 0 :: 1 :: [])).getD 0 0
    ∧ swap16 (48 % 256 + 256 * (0 % 256)) = 256 * (48 % 256) + (0 % 256) :=
  load_roundtrip (fun _ => 0) 48 0 (18 :: 66 :: 0 :: 1 :: []) 0 (by decide) (by decide)

/-- Claim C6: a stream that cannot be opened makes the loader return failure
with memory untouched; otherwise the loader writes `min(stream words,
65535 - origin)` words — it stops at end-of-stream or at the top of memory,
at most `65536 - origin` words — and addresses outside the loaded region keep
their previous contents. -/
theorem load_failure_and_bounds :
    (∀ m : Mem, read_image m none = (false, m))
    ∧ (∀ (m : Mem) (b0 b1 : Nat) (data : List Nat),
        min ((bytesToWordsLE data).length)
            (65535 - swap16 (b0 % 256 + 256 * (b1 % 256)))
          ≤ 65536 - swap16 (b0 % 256 + 256 * (b1 % 256))
        ∧ ∀ x : Nat,
            (x < swap16 (b0 % 256 + 256 * (b1 % 256))
              ∨ swap16 (b0 % 256 + 256 * (b1 % 256)) +
                  min ((bytesToWordsLE data).length)
                      (65535 - swap16 (b0 % 256 + 256 * (b1 % 256))) ≤ x) →
            read_image_file m (b0 :: b1 :: data) x = m x) := by
  refine ⟨fun m => rfl, fun m b0 b1 data => ⟨by omega, fun x hx => ?_⟩⟩
  rw [read_image_file_apply, if_neg ?_]
  rw [List.length_take]
  omega

/-- Witness for C6: frame preservation below and above the loaded region. -/
theorem load_failure_and_bounds_witness :
    read_image (fun _ => 0) none = (false, fun _ => 0)
    ∧ read_image_file (fun _ => 0) (48 :: 0 :: 18 :: 66 :: []) 5 = (fun _ => (0 : Nat)) 5 :=
  ⟨load_failure_and_bounds.1 (fun _ => 0),
   (load_failure_and_bounds.2 (fun _ => 0) 48 0 (18 :: 66 :: [])).2 5 (by left; decide)⟩

/-! Condition-flag invariant machinery. -/

/-- The condition register holds exactly one of the three flag bits. -/
def condOK (s : State) : Prop :=
  regR s R_COND = FL_POS ∨ regR s R_COND = FL_ZRO ∨ regR s R_COND = FL_NEG

theorem flagFor_cases (v : Nat) : flagFor v = FL_POS ∨ flagFor v = FL_ZRO ∨ flagFor v = FL_NEG := by
  unfold flagFor
  split_ifs <;> simp

theorem condOK_update_flags (s : State) (r : Nat) : condOK (update_flags s r) := by
  unfold condOK
  rw [regR_update_flags_cond]
  exact flagFor_cases _

theorem condOK_regW (s : State) {i : Nat} (v : Nat) (h : i ≠ R_COND) :
    condOK (regW s i v) ↔ condOK s := by
  unfold condOK
  rw [regR_regW_ne _ _ (Ne.symm h)]

theorem condOK_opADD (instr : Nat) (s : State) : condOK (opADD instr s) :=
  condOK_update_flags _ _

theorem condOK_opAND (instr : Nat) (s : State) : condOK (opAND instr s) :=
  condOK_update_flags _ _

theorem condOK_opNOT (instr : Nat) (s : State) : condOK (opNOT instr s) :=
  condOK_update_flags _ _

theorem condOK_opLD (instr : Nat) (s : State) : condOK (opLD instr s) :=
  condOK_update_flags _ _

theorem condOK_opLDI (instr : Nat) (s : State) : condOK (opLDI instr s) :=
  condOK_update_flags _ _

theorem condOK_opLDR (instr : Nat) (s : State) : condOK (opLDR instr s) :=
  condOK_update_flags _ _

theorem condOK_opLEA (instr : Nat) (s : State) : condOK (opLEA instr s) :=
  condOK_update_flags _ _

theorem condOK_opBR (instr : Nat) (s : State) (h : condOK s) : condOK (opBR instr s) := by
  simp only [opBR]
  split_ifs
  · exact (condOK_regW _ _ (by norm_num)).mpr h
  · exact h

theorem condOK_opJMP (instr : Nat) (s : State) (h : condOK s) : condOK (opJMP instr s) :=
  (condOK_regW _ _ (by norm_num)).mpr h

theorem condOK_opJSR (instr : Nat) (s : State) (h : condOK s) : condOK (opJSR instr s) := by
  simp only [opJSR]
  split_ifs
  · exact (condOK_regW _ _ (by norm_num)).mpr ((condOK_regW _ _ (by norm_num)).mpr h)
  · exact (condOK_regW _ _ (by norm_num)).mpr ((condOK_regW _ _ (by norm_num)).mpr h)

theorem condOK_opST (instr : Nat) (s : State) (h : condOK s) : condOK (opST instr s) := h

theorem condOK_opSTI (instr : Nat) (s : State) (h : condOK s) : condOK (opSTI instr s) := h

theorem condOK_opSTR (instr : Nat) (s : State) (h : condOK s) : condOK (opSTR instr s) := h

theorem condOK_opTRAP (instr : Nat) (s : State) (h : condOK s) : condOK (opTRAP instr s) := by
  unfold opTRAP
  split_ifs <;> first
    | exact condOK_update_flags _ _
    | exact h

theorem condOK_execute (instr : Nat) (s t : State) (hex : execute instr s = some t)
    (h : condOK s) : condOK t := by
  unfold execute at hex
  by_cases h1 : instr >>> 12 = OP_ADD
  · rw [if_pos h1] at hex; injection hex with hh; subst hh; exact condOK_opADD _ _
  rw [if_neg h1] at hex
  by_cases h2 : instr >>> 12 = OP_AND
  · rw [if_pos h2] at hex; injection hex with hh; subst hh; exact condOK_opAND _ _
  rw [if_neg h2] at hex
  by_cases h3 : instr >>> 12 = OP_NOT
  · rw [if_pos h3] at hex; injection hex with hh; subst hh; exact condOK_opNOT _ _
  rw [if_neg h3] at hex
  by_cases h4 : instr >>> 12 = OP_BR
  · rw [if_pos h4] at hex; injection hex with hh; subst hh; exact condOK_opBR _ _ h
  rw [if_neg h4] at hex
  by_cases h5 : instr >>> 12 = OP_JMP
  · rw [if_pos h5] at hex; injection hex with hh; subst hh; exact condOK_opJMP _ _ h
  rw [if_neg h5] at hex
  by_cases h6 : instr >>> 12 = OP_JSR
  · rw [if_pos h6] at hex; injection hex with hh; subst hh; exact condOK_opJSR _ _ h
  rw [if_neg h6] at hex
  by_cases h7 : instr >>> 12 = OP_LD
  · rw [if_pos h7] at hex; injection hex with hh; subst hh; exact condOK_opLD _ _
  rw [if_neg h7] at hex
  by_cases h8 : instr >>> 12 = OP_LDI
  · rw [if_pos h8] at hex; injection hex with hh; subst hh; exact condOK_opLDI _ _
  rw [if_neg h8] at hex
  by_cases h9 : instr >>> 12 = OP_LDR
  · rw [if_pos h9] at hex; injection hex with hh; subst hh; exact condOK_opLDR _ _
  rw [if_neg h9] at hex
  by_cases h10 : instr >>> 12 = OP_LEA
  · rw [if_pos h10] at hex; injection hex with hh; subst hh; exact condOK_opLEA _ _
  rw [if_neg h10] at hex
  by_cases h11 : instr >>> 12 = OP_ST
  · rw [if_pos h11] at hex; injection hex with hh; subst hh; exact condOK_opST _ _ h
  rw [if_neg h11] at hex
  by_cases h12 : instr >>> 12 = OP_STI
  · rw [if_pos h12] at hex; injection hex with hh; subst hh; exact condOK_opSTI _ _ h
  rw [if_neg h12] at hex
  by_cases h13 : instr >>> 12 = OP_STR
  · rw [if_pos h13] at hex; injection hex with hh; subst hh; exact condOK_opSTR _ _ h
  rw [if_neg h13] at hex
  by_cases h14 : instr >>> 12 = OP_TRAP
  · rw [if_pos h14] at hex; injection hex with hh; subst hh; exact condOK_opTRAP _ _ h
  rw [if_neg h14] at hex
  exact absurd hex (by simp)

theorem condOK_stepBody (s t : State) (h : stepBody s = some t) (hc : condOK s) : condOK t := by
  unfold stepBody at h
  refine condOK_execute _ _ _ h ?_
  exact (condOK_regW _ _ (by norm_num)).mpr hc

theorem condOK_run : ∀ (n : Nat) (s t : State), run n s = some t → condOK s → condOK t := by
  intro n
  induction n with
  | zero =>
    intro s t h hc
    injection h with hh
    subst hh
    exact hc
  | succ n ih =>
    intro s t h hc
    rw [run] at h
    split_ifs at h
    · cases hstep : stepBody s <;> rw [hstep] at h
      · cases h
      · exact ih _ _ h (condOK_stepBody _ _ hstep hc)
    · injection h with hh
      subst hh
      exact hc

/-- Claim C3: `update_flags` always sets the condition register to the single
flag bit matching the destination register's value (zero flag for 0, negative
flag when bit 15 is set, positive flag otherwise); at startup the condition
register is the zero flag; and over every state reachable by the execution
loop the condition register holds exactly one of the three flag bits. -/
theorem cond_flag_invariant :
    (∀ (s : State) (r : Nat), r < 8 →
      regR (update_flags s r) R_COND = flagFor (regR (update_flags s r) r))
    ∧ (∀ (m : Mem) (inp : List Nat), regR (initState m inp) R_COND = FL_ZRO)
    ∧ (∀ (m : Mem) (inp : List Nat) (n : Nat) (s : State),
        run n (initState m inp) = some s →
        regR s R_COND = FL_POS ∨ regR s R_COND = FL_ZRO ∨ regR s R_COND = FL_NEG) := by
  refine ⟨fun s r hr => ?_, fun m inp => rfl, fun m inp n s h => ?_⟩
  · rw [regR_update_flags_cond, regR_update_flags_ne s r (show r ≠ 9 by omega)]
  · exact condOK_run n _ s h (Or.inr (Or.inl rfl))

/-- Witness for C3: flag update on register 0, and the initial state of the
loop over zeroed memory. -/
theorem cond_flag_invariant_witness :
    regR (update_flags (initState (fun _ => 0) []) 0) R_COND
      = flagFor (regR (update_flags (initState (fun _ => 0) []) 0) 0)
    ∧ (regR (initState (fun _ => 0) []) R_COND = FL_POS
        ∨ regR (initState (fun _ => 0) []) R_COND = FL_ZRO
        ∨ regR (initState (fun _ => 0) []) R_COND = FL_NEG) :=
  ⟨cond_flag_invariant.1 (initState (fun _ => 0) []) 0 (by decide),
   cond_flag_invariant.2.2 (fun _ => 0) [] 0 (initState (fun _ => 0) []) rfl⟩

/-! Preservation of the `running` flag by every handler except `TRAP_HALT`. -/

theorem opADD_running (instr : Nat) (s : State) : (opADD instr s).running = s.running := by
  simp [opADD, apply_ite]

theorem opAND_running (instr : Nat) (s : State) : (opAND instr s).running = s.running := by
  simp [opAND, apply_ite]

theorem opNOT_running (instr : Nat) (s : State) : (opNOT instr s).running = s.running := by
  simp [opNOT]

theorem opBR_running (instr : Nat) (s : State) : (opBR instr s).running = s.running := by
  simp [opBR, apply_ite]

theorem opJMP_running (instr : Nat) (s : State) : (opJMP instr s).running = s.running := by
  simp [opJMP]

theorem opJSR_running (instr : Nat) (s : State) : (opJSR instr s).running = s.running := by
  simp [opJSR, apply_ite]

theorem opLD_running (instr : Nat) (s : State) : (opLD instr s).running = s.running := by
  simp [opLD]

theorem opLDI_running (instr : Nat) (s : State) : (opLDI instr s).running = s.running := by
  simp [opLDI]

theorem opLDR_running (instr : Nat) (s : State) : (opLDR instr s).running = s.running := by
  simp [opLDR]

theorem opLEA_running (instr : Nat) (s : State) : (opLEA instr s).running = s.running := by
  simp [opLEA]

theorem opST_running (instr : Nat) (s : State) : (opST instr s).running = s.running := by
  simp [opST]

theorem opSTI_running (instr : Nat) (s : State) : (opSTI instr s).running = s.running := by
  simp [opSTI]

theorem opSTR_running (instr : Nat) (s : State) : (opSTR instr s).running = s.running := by
  simp [opSTR]

theorem opTRAP_running (instr : Nat) (s : State) (h : instr &&& 255 ≠ TRAP_HALT) :
    (opTRAP instr s).running = s.running := by
  unfold opTRAP
  split_ifs <;> simp

theorem opTRAP_halt_running (instr : Nat) (s : State) (h : instr &&& 255 = TRAP_HALT) :
    (opTRAP instr s).running = false := by
  unfold opTRAP
  rw [if_neg (by rw [h]; decide), if_neg (by rw [h]; decide), if_neg (by rw [h]; decide),
    if_neg (by rw [h]; decide), if_neg (by rw [h]; decide), if_pos h]

theorem execute_running (instr : Nat) (s t : State) (hex : execute instr s = some t)
    (hne : ¬(instr >>> 12 = OP_TRAP ∧ instr &&& 255 = TRAP_HALT)) :
    t.running = s.running := by
  unfold execute at hex
  by_cases h1 : instr >>> 12 = OP_ADD
  · rw [if_pos h1] at hex; injection hex with hh; subst hh; exact opADD_running _ _
  rw [if_neg h1] at hex
  by_cases h2 : instr >>> 12 = OP_AND
  · rw [if_pos h2] at hex; injection hex with hh; subst hh; exact opAND_running _ _
  rw [if_neg h2] at hex
  by_cases h3 : instr >>> 12 = OP_NOT
  · rw [if_pos h3] at hex; injection hex with hh; subst hh; exact opNOT_running _ _
  rw [if_neg h3] at hex
  by_cases h4 : instr >>> 12 = OP_BR
  · rw [if_pos h4] at hex; injection hex with hh; subst hh; exact opBR_running _ _
  rw [if_neg h4] at hex
  by_cases h5 : instr >>> 12 = OP_JMP
  · rw [if_pos h5] at hex; injection hex with hh; subst hh; exact opJMP_running _ _
  rw [if_neg h5] at hex
  by_cases h6 : instr >>> 12 = OP_JSR
  · rw [if_pos h6] at hex; injection hex with hh; subst hh; exact opJSR_running _ _
  rw [if_neg h6] at hex
  by_cases h7 : instr >>> 12 = OP_LD
  · rw [if_pos h7] at hex; injection hex with hh; subst hh; exact opLD_running _ _
  rw [if_neg h7] at hex
  by_cases h8 : instr >>> 12 = OP_LDI
  · rw [if_pos h8] at hex; injection hex with hh; subst hh; exact opLDI_running _ _
  rw [if_neg h8] at hex
  by_cases h9 : instr >>> 12 = OP_LDR
  · rw [if_pos h9] at hex; injection hex with hh; subst hh; exact opLDR_running _ _
  rw [if_neg h9] at hex
  by_cases h10 : instr >>> 12 = OP_LEA
  · rw [if_pos h10] at hex; injection hex with hh; subst hh; exact opLEA_running _ _
  rw [if_neg h10] at hex
  by_cases h11 : instr >>> 12 = OP_ST
  · rw [if_pos h11] at hex; injection hex with hh; subst hh; exact opST_running _ _
  rw [if_neg h11] at hex
  by_cases h12 : instr >>> 12 = OP_STI
  · rw [if_pos h12] at hex; injection hex with hh; subst hh; exact opSTI_running _ _
  rw [if_neg h12] at hex
  by_cases h13 : instr >>> 12 = OP_STR
  · rw [if_pos h13] at hex; injection hex with hh; subst hh; exact opSTR_running _ _
  rw [if_neg h13] at hex
  by_cases h14 : instr >>> 12 = OP_TRAP
  · rw [if_pos h14] at hex
    injection hex with hh
    subst hh
    exact opTRAP_running _ _ (fun hv => hne ⟨h14, hv⟩)
  rw [if_neg h14] at hex
  exact absurd hex (by simp)

theorem run_halted (n : Nat) (s : State) (h : s.running = false) : run n s = some s := by
  cases n
  · rfl
  · rw [run, if_neg (by rw [h]; exact Bool.false_ne_true)]

/-- Claim C7: a BR instruction adds the sign-extended 9-bit offset to the
post-fetch program counter (mod 2^16) exactly when the instruction's
condition bits intersect the condition register, leaves the program counter
unchanged otherwise, and in either case changes no other register, no
memory, no input, no output, and not the running flag. -/
theorem br_semantics (instr : Nat) (s : State) (h : instr >>> 12 = OP_BR) :
    ∃ t, execute instr s = some t
      ∧ t.mem = s.mem ∧ t.input = s.input ∧ t.output = s.output ∧ t.running = s.running
      ∧ (∀ i, i ≠ R_PC → t.reg i = s.reg i)
      ∧ regR t R_PC =
          (if ((instr >>> 9) &&& 7) &&& regR s R_COND ≠ 0
           then (regR s R_PC + sign_extend (instr &&& 511) 9) % 65536
           else regR s R_PC) := by
  have hexec : execute instr s = some (opBR instr s) := by
    unfold execute
    rw [if_neg (by rw [h]; decide), if_neg (by rw [h]; decide), if_neg (by rw [h]; decide),
      if_pos h]
  by_cases hc : ((instr >>> 9) &&& 7) &&& regR s R_COND ≠ 0
  · refine ⟨regW s R_PC (regR s R_PC + sign_extend (instr &&& 511) 9),
      ?_, rfl, rfl, rfl, rfl, ?_, ?_⟩
    · rw [hexec]
      unfold opBR
      rw [if_pos hc]
    · intro i hi
      simp [regW, hi]
    · rw [regR_regW_self, if_pos hc]
      rfl
  · refine ⟨s, ?_, rfl, rfl, rfl, rfl, fun i _ => rfl, ?_⟩
    · rw [hexec]
      unfold opBR
      rw [if_neg hc]
    · rw [if_neg hc]

/-- Witness for C7: a BR instruction with empty condition bits (instruction
word 0) never branches. -/
theorem br_semantics_witness :
    ∃ t, execute 0 (initState (fun _ => 0) []) = some t
      ∧ t.mem = (initState (fun _ => 0) []).mem
      ∧ t.input = (initState (fun _ => 0) []).input
      ∧ t.output = (initState (fun _ => 0) []).output
      ∧ t.running = (initState (fun _ => 0) []).running
      ∧ (∀ i, i ≠ R_PC → t.reg i = (initState (fun _ => 0) []).reg i)
      ∧ regR t R_PC =
          (if ((0 >>> 9) &&& 7) &&& regR (initState (fun _ => 0) []) R_COND ≠ 0
           then (regR (initState (fun _ => 0) []) R_PC + sign_extend (0 &&& 511) 9) % 65536
           else regR (initState (fun _ => 0) []) R_PC) :=
  br_semantics 0 (initState (fun _ => 0) []) (by decide)

/-- Claim C8: executing TRAP with vector 0x25 turns the running flag from
true to false while leaving registers, memory and input alone; a state whose
running flag is false makes the loop exit immediately (no further fetch, the
loop returns the state unchanged for any fuel); and the HALT trap is the only
instruction whose execution turns the running flag from true to false. -/
theorem halt_semantics :
    (∀ (s : State) (instr : Nat),
      instr >>> 12 = OP_TRAP → instr &&& 255 = TRAP_HALT → s.running = true →
      ∃ t, execute instr s = some t ∧ t.running = false ∧ t.reg = s.reg ∧ t.mem = s.mem
        ∧ t.input = s.input)
    ∧ (∀ (n : Nat) (s : State), s.running = false → run n s = some s)
    ∧ (∀ (s t : State), s.running = true → stepBody s = some t → t.running = false →
        (mem_read s.mem s.input (regR s R_PC)).1 >>> 12 = OP_TRAP
        ∧ (mem_read s.mem s.input (regR s R_PC)).1 &&& 255 = TRAP_HALT) := by
  refine ⟨fun s instr hop hvec _ => ?_, fun n s h => run_halted n s h, fun s t hrun hstep hfalse => ?_⟩
  · have hexec : execute instr s = some (opTRAP instr s) := by
      unfold execute
      rw [if_neg (by rw [hop]; decide), if_neg (by rw [hop]; decide),
        if_neg (by rw [hop]; decide), if_neg (by rw [hop]; decide),
        if_neg (by rw [hop]; decide), if_neg (by rw [hop]; decide),
        if_neg (by rw [hop]; decide), if_neg (by rw [hop]; decide),
        if_neg (by rw [hop]; decide), if_neg (by rw [hop]; decide),
        if_neg (by rw [hop]; decide), if_neg (by rw [hop]; decide),
        if_neg (by rw [hop]; decide), if_pos hop]
    refine ⟨opTRAP instr s, hexec, opTRAP_halt_running instr s hvec, ?_, ?_, ?_⟩ <;>
      (unfold opTRAP
       rw [if_neg (by rw [hvec]; decide), if_neg (by rw [hvec]; decide),
         if_neg (by rw [hvec]; decide), if_neg (by rw [hvec]; decide),
         if_neg (by rw [hvec]; decide), if_pos hvec])
  · by_contra hne
    have hpres := execute_running _ _ _ hstep hne
    have hs1 : (regW { s with
        mem := (mem_read s.mem s.input (regR s R_PC)).2.1,
        input := (mem_read s.mem s.input (regR s R_PC)).2.2 } R_PC
        (regR s R_PC + 1)).running = s.running := rfl
    rw [hs1, hrun] at hpres
    exact absurd (hfalse ▸ hpres) (by simp)

/-- Witness for C8: executing the HALT trap word 0xF025 from the initial
state halts, and the loop is exited for any halted state. -/
theorem halt_semantics_witness :
    (∃ t, execute 61477 (initState (fun _ => 0) []) = some t ∧ t.running = false
      ∧ t.reg = (initState (fun _ => 0) []).reg
      ∧ t.mem = (initState (fun _ => 0) []).mem
      ∧ t.input = (initState (fun _ => 0) []).input)
    ∧ run 3 { initState (fun _ => 0) [] with running := false }
        = some { initState (fun _ => 0) [] with running := false } :=
  ⟨halt_semantics.1 (initState (fun _ => 0) []) 61477 (by decide) (by decide) rfl,
   halt_semantics.2.1 3 { initState (fun _ => 0) [] with running := false } rfl⟩

/-- Claim C9: the dispatch aborts the process (models as `none`) exactly on
the opcodes `OP_RTI = 8` and `OP_RES = 13`; every other opcode value 0..15
dispatches to a handler. -/
theorem reserved_opcode_aborts (instr : Nat) (s : State) (h : instr < 65536) :
    (execute instr s = none ↔ instr >>> 12 = OP_RTI ∨ instr >>> 12 = OP_RES) := by
  have hk16 : instr >>> 12 < 16 := by
    rw [Nat.shiftRight_eq_div_pow]
    omega
  unfold execute
  generalize hgen : instr >>> 12 = k at hk16 ⊢
  interval_cases k <;> simp

/-- Witness for C9: the RTI instruction word 0x8000 aborts. -/
theorem reserved_opcode_aborts_witness :
    execute 32768 (initState (fun _ => 0) []) = none
      ↔ 32768 >>> 12 = OP_RTI ∨ 32768 >>> 12 = OP_RES :=
  reserved_opcode_aborts 32768 (initState (fun _ => 0) []) (by decide)

/-- A fetch that yields a TRAP opcode cannot have come from the keyboard
status address, whose read returns only 0x8000 or 0. -/
theorem fetch_trap_pc_ne_kbsr (s : State)
    (hop : (mem_read s.mem s.input (regR s R_PC)).1 >>> 12 = OP_TRAP) :
    regR s R_PC ≠ MR_KBSR := by
  intro he
  rw [he] at hop
  unfold mem_read at hop
  rw [if_pos rfl] at hop
  by_cases hk : check_key s.input = true
  · rw [if_pos hk] at hop
    replace hop : memR (memW (memW s.mem MR_KBSR 32768) MR_KBDR (getchar s.input).1) MR_KBSR >>> 12
        = OP_TRAP := hop
    rw [show memR (memW (memW s.mem MR_KBSR 32768) MR_KBDR (getchar s.input).1) MR_KBSR = 32768
      from by rw [memR_memW, if_neg (by decide), memR_memW, if_pos rfl]; rfl] at hop
    exact absurd hop (by decide)
  · rw [if_neg hk] at hop
    replace hop : memR (memW s.mem MR_KBSR 0) MR_KBSR >>> 12 = OP_TRAP := hop
    rw [show memR (memW s.mem MR_KBSR 0) MR_KBSR = 0
      from by rw [memR_memW, if_pos rfl]; rfl] at hop
    exact absurd hop (by decide)

/-- Claim C10: a TRAP instruction whose vector is not 0x20..0x25 matches no
case of the trap dispatch, so the loop body is a no-op apart from the fetch
increment of the program counter: registers other than PC, memory, input,
output and the running flag are all unchanged, and the step does not abort. -/
theorem trap_unknown_vector_noop (s : State)
    (hop : (mem_read s.mem s.input (regR s R_PC)).1 >>> 12 = OP_TRAP)
    (hvec : (mem_read s.mem s.input (regR s R_PC)).1 &&& 255 < 32
            ∨ 37 < (mem_read s.mem s.input (regR s R_PC)).1 &&& 255) :
    ∃ t, stepBody s = some t
      ∧ t.mem = s.mem ∧ t.input = s.input ∧ t.output = s.output ∧ t.running = s.running
      ∧ (∀ i, i ≠ R_PC → t.reg i = s.reg i)
      ∧ regR t R_PC = (regR s R_PC + 1) % 65536 := by
  have hpc : regR s R_PC ≠ MR_KBSR := fetch_trap_pc_ne_kbsr s hop
  have hmr : mem_read s.mem s.input (regR s R_PC)
      = (memR s.mem (regR s R_PC), s.mem, s.input) := mem_read_of_ne hpc
  replace hop : memR s.mem (regR s R_PC) >>> 12 = OP_TRAP := by
    rw [hmr] at hop
    exact hop
  replace hvec : memR s.mem (regR s R_PC) &&& 255 < 32
      ∨ 37 < memR s.mem (regR s R_PC) &&& 255 := by
    rw [hmr] at hvec
    exact hvec
  refine ⟨regW s R_PC (regR s R_PC + 1), ?_, rfl, rfl, rfl, rfl, ?_, ?_⟩
  · unfold stepBody
    rw [hmr]
    show execute (memR s.mem (regR s R_PC)) (regW s R_PC (regR s R_PC + 1)) = _
    unfold execute
    rw [if_neg (by rw [hop]; decide), if_neg (by rw [hop]; decide),
      if_neg (by rw [hop]; decide), if_neg (by rw [hop]; decide),
      if_neg (by rw [hop]; decide), if_neg (by rw [hop]; decide),
      if_neg (by rw [hop]; decide), if_neg (by rw [hop]; decide),
      if_neg (by rw [hop]; decide), if_neg (by rw [hop]; decide),
      if_neg (by rw [hop]; decide), if_neg (by rw [hop]; decide),
      if_neg (by rw [hop]; decide), if_pos hop]
    unfold opTRAP
    have hv32 : ¬(memR s.mem (regR s R_PC) &&& 255 = 32) := by omega
    have hv33 : ¬(memR s.mem (regR s R_PC) &&& 255 = 33) := by omega
    have hv34 : ¬(memR s.mem (regR s R_PC) &&& 255 = 34) := by omega
    have hv35 : ¬(memR s.mem (regR s R_PC) &&& 255 = 35) := by omega
    have hv36 : ¬(memR s.mem (regR s R_PC) &&& 255 = 36) := by omega
    have hv37 : ¬(memR s.mem (regR s R_PC) &&& 255 = 37) := by omega
    rw [if_neg hv32, if_neg hv33, if_neg hv34, if_neg hv35, if_neg hv36, if_neg hv37]
  · intro i hi
    simp [regW, hi]
  · rw [regR_regW_self]
    rfl

/-- Test state for the C10 witness: zeroed registers, memory constantly
holding the TRAP word 0xF000 (vector 0), no pending input. -/
def trapTestState : State :=
  { reg := fun _ => 0, mem := fun _ => 61440, running := true, input := [], output := [] }

/-- Witness for C10: fetching the TRAP word 0xF000 (vector 0) advances only
the program counter. -/
theorem trap_unknown_vector_noop_witness :
    ∃ t, stepBody trapTestState = some t
      ∧ t.mem = trapTestState.mem
      ∧ t.input = trapTestState.input
      ∧ t.output = trapTestState.output
      ∧ t.running = trapTestState.running
      ∧ (∀ i, i ≠ R_PC → t.reg i = trapTestState.reg i)
      ∧ regR t R_PC = (regR trapTestState R_PC + 1) % 65536 :=
  trap_unknown_vector_noop trapTestState (by decide) (by decide)

end LC3
